import Mathlib

/-!
Verification development for the CRBasic grammar (src/grammar.js).

The grammar is embedded shallowly:
* `Token` / `tokenize` model tree-sitter's lexer for the terminal rules of the
  grammar (`identifier`, `number`, `string`, `comment`, the anonymous keyword
  and operator tokens, and the `extras` whitespace), using maximal munch.
* `Tree` / the `p...` parsers model the grammar rules as a backtracking
  recursive-descent parser over the token stream.  The seven `prec.left`
  levels of `binary_expression` together with the `prec 8` of
  `unary_expression` are realised by precedence climbing, which reproduces
  tree-sitter's resolution of those declarations.
* Keyword tokens are matched case-sensitively, exactly as the string literals
  of the grammar demand.
-/

namespace CRBasic

/-- A lexed token.  `kw` covers both the word keywords and the anonymous
operator/punctuation tokens of the grammar; `ws` and `comment` are the
`extras`. -/
inductive Token where
  | kw (s : String)
  | ident (s : String)
  | num (s : String)
  | str (s : String)
  | ws (s : String)
  | comment (s : String)
deriving DecidableEq, Repr

/-- The raw text of a token. -/
def tokText : Token → String
  | .kw s => s
  | .ident s => s
  | .num s => s
  | .str s => s
  | .ws s => s
  | .comment s => s

/-- All word-shaped keyword strings appearing in grammar.js, written exactly
as they are spelled there (tree-sitter string tokens are case-sensitive). -/
def kwStrings : List String :=
  ["BeginProg", "EndProg", "Function", "EndFunction", "Sub", "EndSub",
   "Dim", "Public", "As", "Const", "ConstTable", "EndConstTable",
   "If", "Then", "ElseIf", "Else", "EndIf",
   "For", "To", "Step", "Next",
   "While", "Wend", "Do", "Loop", "Until",
   "Select", "Case", "Is", "EndSelect",
   "Scan", "NextScan", "SubScan", "NextSubScan", "SlowSequence", "EndSequence",
   "DisplayMenu", "EndMenu", "SubMenu", "EndSubMenu", "MenuItem",
   "DataTable", "EndTable", "CallTable", "Include",
   "MOD", "INTDV", "AND", "OR", "XOR", "IMP", "NOT",
   "True", "False", "TRUE", "FALSE", "true", "false",
   "Boolean", "Float", "Double", "Long", "String",
   "FP2", "IEEE4", "IEEE8", "UINT1", "UINT2", "UINT4", "Bool8", "NSEC"]

/-- The anonymous operator / punctuation tokens of the grammar (including the
preprocessor markers). -/
def opStrings : List String :=
  ["*=", "+=", "-=", "/=", "\\=", "^=", "&=",
   "<>", "<=", ">=", ">>", "<<",
   "#IfDef", "#If", "#Else", "#EndIf", "#UnDef",
   "=", "+", "-", "*", "/", "^", "<", ">", "&", "|", "!", "(", ")", ","]

/-- The six spellings accepted by the `boolean` rule of the grammar. -/
def boolStrings : List String := ["True", "False", "TRUE", "FALSE", "true", "false"]

/-- The thirteen type names of the `type` rule. -/
def typeStrings : List String :=
  ["Boolean", "Float", "Double", "Long", "String",
   "FP2", "IEEE4", "IEEE8", "UINT1", "UINT2", "UINT4", "Bool8", "NSEC"]

/- ## Character classes -/

def isWsChar (c : Char) : Bool :=
  c = ' ' || c = '\t' || c = '\n' || c = '\r' || c = '\x0b' || c = '\x0c'

def isDigitChar (c : Char) : Bool := '0' ≤ c && c ≤ '9'

def isBinChar (c : Char) : Bool := c = '0' || c = '1'

def isHexChar (c : Char) : Bool :=
  isDigitChar c || ('a' ≤ c && c ≤ 'f') || ('A' ≤ c && c ≤ 'F')

def isAlphaChar (c : Char) : Bool :=
  ('a' ≤ c && c ≤ 'z') || ('A' ≤ c && c ≤ 'Z')

def isIdentStart (c : Char) : Bool := isAlphaChar c || c = '_'

def isIdentChar (c : Char) : Bool := isIdentStart c || isDigitChar c

def isSufChar (c : Char) : Bool :=
  c = 'L' || c = 'l' || c = 'U' || c = 'u' || c = 'F' || c = 'f'

def isExpChar (c : Char) : Bool := c = 'e' || c = 'E'

def isSignChar (c : Char) : Bool := c = '+' || c = '-'

/- ## Longest-match helpers for the terminal regexes -/

/-- Length of the longest run of characters satisfying `f` at the head. -/
def runLen (f : Char → Bool) : List Char → Nat
  | [] => 0
  | c :: cs => if f c then runLen f cs + 1 else 0

/-- Pick the longer of two optional match lengths (left preferred on ties). -/
def omax : Option Nat → Option Nat → Option Nat
  | none, b => b
  | some n, none => some n
  | some n, some m => if n < m then some m else some n

/-- `&[bB][0-1]+` -/
def binNum : List Char → Option Nat
  | '&' :: b :: rest =>
    if b = 'b' || b = 'B' then
      let n := runLen isBinChar rest
      if n = 0 then none else some (2 + n)
    else none
  | _ => none

/-- `&[hH][0-9a-fA-F]+` -/
def hexNum : List Char → Option Nat
  | '&' :: h :: rest =>
    if h = 'h' || h = 'H' then
      let n := runLen isHexChar rest
      if n = 0 then none else some (2 + n)
    else none
  | _ => none

/-- Exponent part `[eE][+-]?\d+`, applied after a prefix of length `k`. -/
def expTail (cs : List Char) : Option Nat :=
  match cs with
  | e :: rest =>
    if isExpChar e then
      match rest with
      | s :: rest2 =>
        if isSignChar s then
          let d := runLen isDigitChar rest2
          if d = 0 then none else some (2 + d)
        else
          let d := runLen isDigitChar rest
          if d = 0 then none else some (1 + d)
      | [] => none
    else none
  | [] => none

/-- Single-character suffix `[LlUuFf]`, applied after a prefix. -/
def sufTail (cs : List Char) : Option Nat :=
  match cs with
  | c :: _ => if isSufChar c then some 1 else none
  | [] => none

/-- `\d+` together with its `[eE]...` and suffix variants
(`/\d+/`, `/\d+[eE][+-]?\d+/`, `/\d+[LlUuFf]/`). -/
def intNum (cs : List Char) : Option Nat :=
  let d := runLen isDigitChar cs
  if d = 0 then none
  else
    omax (some d)
      (omax ((expTail (cs.drop d)).map (fun e => d + e))
            ((sufTail (cs.drop d)).map (fun e => d + e)))

/-- `\d+\.\d*` together with its exponent and suffix variants. -/
def fracNum (cs : List Char) : Option Nat :=
  let d := runLen isDigitChar cs
  if d = 0 then none
  else
    match cs.drop d with
    | '.' :: rest =>
      let f := runLen isDigitChar rest
      let base := d + 1 + f
      omax (some base)
        (omax ((expTail (rest.drop f)).map (fun e => base + e))
              ((sufTail (rest.drop f)).map (fun e => base + e)))
    | _ => none

/-- `\.\d+` together with its exponent variant (no suffix form in the
grammar). -/
def dotNum (cs : List Char) : Option Nat :=
  match cs with
  | '.' :: rest =>
    let f := runLen isDigitChar rest
    if f = 0 then none
    else omax (some (1 + f)) ((expTail (rest.drop f)).map (fun e => 1 + f + e))
  | _ => none

/-- Longest match of the `number` rule (the union of its ten regexes). -/
def numMatch (cs : List Char) : Option Nat :=
  omax (binNum cs) (omax (hexNum cs) (omax (intNum cs) (omax (fracNum cs) (dotNum cs))))

/-- Is `s` (as chars) a literal prefix of `cs`? -/
def leadMatch : List Char → List Char → Bool
  | [], _ => true
  | _ :: _, [] => false
  | a :: as_, b :: bs => a = b && leadMatch as_ bs

/-- Longest match among the anonymous operator tokens. -/
def opMatch (cs : List Char) : Option Nat :=
  opStrings.foldr (fun s acc => if leadMatch s.data cs then omax (some s.length) acc else acc) none

/-- Longest match of `[a-zA-Z_][a-zA-Z0-9_]*`. -/
def identMatch : List Char → Option Nat
  | [] => none
  | c :: cs => if isIdentStart c then some (1 + runLen isIdentChar cs) else none

/-- Longest match of the comment rule `'[^\r\n]*`. -/
def commentMatch : List Char → Option Nat
  | [] => none
  | c :: cs =>
    if c = '\'' then some (1 + runLen (fun d => !(d = '\r' || d = '\n')) cs) else none

/-- Whitespace run. -/
def wsMatch (cs : List Char) : Option Nat :=
  let n := runLen isWsChar cs
  if n = 0 then none else some n

/-- Length of the string-literal body after the opening quote: characters
other than `"` and `\`, or `\` followed by any character, then the closing
quote. -/
def strBody : List Char → Option Nat
  | [] => none
  | '"' :: _ => some 1
  | '\\' :: [] => none
  | '\\' :: _ :: rest => (strBody rest).map (· + 2)
  | c :: rest => if c = '"' || c = '\\' then none else (strBody rest).map (· + 1)

/-- Longest match of the `string` rule. -/
def strMatch : List Char → Option Nat
  | [] => none
  | c :: rest => if c = '"' then (strBody rest).map (· + 1) else none

/-- Token kinds produced by the lexer before the text is attached. -/
inductive TokKind where
  | ws | comment | str | num | op | identLike
deriving DecidableEq, Repr

/-- Build the token for a kind from its matched text.  An identifier-shaped
lexeme that is exactly one of the grammar's keyword strings becomes that
keyword token (case-sensitively). -/
def mkTok : TokKind → String → Token
  | .ws, s => .ws s
  | .comment, s => .comment s
  | .str, s => .str s
  | .num, s => .num s
  | .op, s => .kw s
  | .identLike, s => if s ∈ kwStrings then .kw s else .ident s

/-- Prefer the longer match; on equal length the first argument wins. -/
def bestOf (a b : Option (TokKind × Nat)) : Option (TokKind × Nat) :=
  match a, b with
  | none, b => b
  | some x, none => some x
  | some (k1, n1), some (k2, n2) => if n1 < n2 then some (k2, n2) else some (k1, n1)

/-- Classify the longest token at the head of the input. -/
def lexClass (cs : List Char) : Option (TokKind × Nat) :=
  bestOf ((wsMatch cs).map (fun n => (TokKind.ws, n)))
    (bestOf ((commentMatch cs).map (fun n => (TokKind.comment, n)))
      (bestOf ((strMatch cs).map (fun n => (TokKind.str, n)))
        (bestOf ((numMatch cs).map (fun n => (TokKind.num, n)))
          (bestOf ((opMatch cs).map (fun n => (TokKind.op, n)))
            ((identMatch cs).map (fun n => (TokKind.identLike, n)))))))

/-- One lexer step: the token and the number of characters it consumed. -/
def lexOne (cs : List Char) : Option (Token × Nat) :=
  (lexClass cs).map (fun kn => (mkTok kn.1 (String.mk (cs.take kn.2)), kn.2))

/-- The full lexer (fuel-indexed).  Fails on input no token matches. -/
def tokenize : Nat → List Char → Option (List Token)
  | _, [] => some []
  | 0, _ :: _ => none
  | f + 1, cs =>
    match lexOne cs with
    | none => none
    | some (t, n) =>
      if n = 0 then none
      else
        match tokenize f (cs.drop n) with
        | none => none
        | some ts => some (t :: ts)

/-- Concatenated text of a token list. -/
def toksChars (ts : List Token) : List Char :=
  ts.foldr (fun t acc => (tokText t).data ++ acc) []

theorem tokText_mkTok (k : TokKind) (s : String) : tokText (mkTok k s) = s := by
  cases k
  case ws => rfl
  case comment => rfl
  case str => rfl
  case num => rfl
  case op => rfl
  case identLike =>
    by_cases h : s ∈ kwStrings
    · simp [mkTok, h, tokText]
    · simp [mkTok, h, tokText]

theorem lexOne_text {cs : List Char} {t : Token} {n : Nat}
    (h : lexOne cs = some (t, n)) : (tokText t).data = cs.take n := by
  unfold lexOne at h
  cases hc : lexClass cs with
  | none => simp [hc] at h
  | some kn =>
    simp [hc] at h
    obtain ⟨ht, hn⟩ := h
    subst hn
    rw [← ht, tokText_mkTok]

/-- Lexer round trip: a successful tokenisation concatenates back to the
input text. -/
theorem tokenize_sound : ∀ (f : Nat) (cs : List Char) (ts : List Token),
    tokenize f cs = some ts → toksChars ts = cs := by
  intro f
  induction f with
  | zero =>
    intro cs ts h
    cases cs with
    | nil => simp [tokenize] at h; subst h; rfl
    | cons c cs => simp [tokenize] at h
  | succ f ih =>
    intro cs ts h
    cases cs with
    | nil => simp [tokenize] at h; subst h; rfl
    | cons c cs0 =>
      unfold tokenize at h
      cases hl : lexOne (c :: cs0) with
      | none => simp [hl] at h
      | some tn =>
        obtain ⟨t, n⟩ := tn
        simp [hl] at h
        by_cases hn : n = 0
        · simp [hn] at h
        · simp [hn] at h
          cases hr : tokenize f ((c :: cs0).drop n) with
          | none => simp [hr] at h
          | some ts0 =>
            simp [hr] at h
            subst h
            have htext := lexOne_text hl
            show toksChars (t :: ts0) = c :: cs0
            have hrec := ih _ _ hr
            calc toksChars (t :: ts0)
                = (tokText t).data ++ toksChars ts0 := rfl
              _ = (c :: cs0).take n ++ (c :: cs0).drop n := by rw [htext, hrec]
              _ = c :: cs0 := List.take_append_drop n (c :: cs0)

/- ## Concrete syntax trees -/

/-- A tree-sitter style concrete syntax tree: anonymous tokens are leaves,
named rules are nodes holding their children in source order. -/
inductive Tree where
  | leaf (t : Token)
  | node (kind : String) (children : List Tree)
deriving Repr

mutual

/-- The leaf tokens of a tree, in left-to-right order. -/
def flatT : Tree → List Token
  | .leaf t => [t]
  | .node _ cs => flatL cs

/-- The leaf tokens of a forest, in left-to-right order. -/
def flatL : List Tree → List Token
  | [] => []
  | t :: ts => flatT t ++ flatL ts

end

theorem flatL_append (a b : List Tree) : flatL (a ++ b) = flatL a ++ flatL b := by
  induction a with
  | nil => simp [flatL]
  | cons t ts ih => simp [flatL, ih]

theorem flatL_map_leaf (l : List Token) : flatL (l.map Tree.leaf) = l := by
  induction l with
  | nil => rfl
  | cons t ts ih => simp [flatL, flatT, ih]

/- ## Parser combinators over the token stream -/

/-- A parser consumes a prefix of the tokens and returns the trees it built
for that prefix. -/
abbrev P := List Token → Option (List Tree × List Token)

def pFail : P := fun _ => none

def pEmpty : P := fun ts => some ([], ts)

/-- The `extras` of the grammar: whitespace and comments. -/
def isTrivia : Token → Bool
  | .ws _ => true
  | .comment _ => true
  | _ => false

/-- Consume any run of extras, keeping them as leaves of the enclosing node
(the spec attaches comment trivia to the following token). -/
def pTrivia : P := fun ts =>
  some ((ts.takeWhile isTrivia).map Tree.leaf, ts.dropWhile isTrivia)

/-- Consume one token recognised by `f`. -/
def pRaw (f : Token → Option Tree) : P := fun ts =>
  match ts with
  | t :: rest =>
    match f t with
    | some tr => some ([tr], rest)
    | none => none
  | [] => none

def pSeq (p q : P) : P := fun ts =>
  match p ts with
  | none => none
  | some (a, ts1) =>
    match q ts1 with
    | none => none
    | some (b, ts2) => some (a ++ b, ts2)

/-- Ordered choice with backtracking. -/
def pChoice (p q : P) : P := fun ts =>
  match p ts with
  | some r => some r
  | none => q ts

def pOpt (p : P) : P := pChoice p pEmpty

/-- `repeat`, bounded by fuel (fuel exhaustion just stops the repetition). -/
def pMany : Nat → P → P
  | 0, _ => pEmpty
  | f + 1, p => fun ts =>
    match p ts with
    | none => some ([], ts)
    | some (a, ts1) =>
      match pMany f p ts1 with
      | none => none
      | some (b, ts2) => some (a ++ b, ts2)

/-- Wrap the children produced by `p` in a named node. -/
def pNode (kind : String) (p : P) : P := fun ts =>
  match p ts with
  | none => none
  | some (a, ts1) => some ([Tree.node kind a], ts1)

/-- A lexical element: leading extras, then one token recognised by `f`. -/
def pLex (f : Token → Option Tree) : P := pSeq pTrivia (pRaw f)

def pKw (s : String) : P :=
  pLex (fun t => if t = .kw s then some (.leaf t) else none)

def pIdent : P :=
  pLex (fun t =>
    match t with
    | .ident _ => some (.node "identifier" [.leaf t])
    | _ => none)

def pNum : P :=
  pLex (fun t =>
    match t with
    | .num _ => some (.node "number" [.leaf t])
    | _ => none)

def pStr : P :=
  pLex (fun t =>
    match t with
    | .str _ => some (.node "string" [.leaf t])
    | _ => none)

def pBool : P :=
  pLex (fun t =>
    match t with
    | .kw s => if s ∈ boolStrings then some (.node "boolean" [.leaf t]) else none
    | _ => none)

def pType : P :=
  pLex (fun t =>
    match t with
    | .kw s => if s ∈ typeStrings then some (.node "type" [.leaf t]) else none
    | _ => none)

/- ## Soundness: a parser only rearranges the tokens it consumed -/

/-- `p` is sound when every successful parse covers exactly the consumed
prefix of the input with its output trees. -/
def Sound (p : P) : Prop :=
  ∀ ts out rest, p ts = some (out, rest) → flatL out ++ rest = ts

theorem sound_pFail : Sound pFail := by
  intro ts out rest h
  simp [pFail] at h

theorem sound_pEmpty : Sound pEmpty := by
  intro ts out rest h
  simp [pEmpty] at h
  obtain ⟨h1, h2⟩ := h
  subst h1; subst h2
  rfl

theorem sound_pTrivia : Sound pTrivia := by
  intro ts out rest h
  simp [pTrivia] at h
  obtain ⟨h1, h2⟩ := h
  subst h1; subst h2
  rw [flatL_map_leaf]
  exact List.takeWhile_append_dropWhile isTrivia ts

theorem sound_pRaw {f : Token → Option Tree}
    (hf : ∀ t tr, f t = some tr → flatT tr = [t]) : Sound (pRaw f) := by
  intro ts out rest h
  cases ts with
  | nil => simp [pRaw] at h
  | cons t ts0 =>
    unfold pRaw at h
    cases hft : f t with
    | none => simp [hft] at h
    | some tr =>
      simp [hft] at h
      obtain ⟨h1, h2⟩ := h
      subst h1; subst h2
      simp [flatL, hf t tr hft]

theorem sound_pSeq {p q : P} (hp : Sound p) (hq : Sound q) : Sound (pSeq p q) := by
  intro ts out rest h
  unfold pSeq at h
  cases h1 : p ts with
  | none => simp [h1] at h
  | some r1 =>
    obtain ⟨a, ts1⟩ := r1
    simp [h1] at h
    cases h2 : q ts1 with
    | none => simp [h2] at h
    | some r2 =>
      obtain ⟨b, ts2⟩ := r2
      simp [h2] at h
      obtain ⟨ho, hr⟩ := h
      subst ho; subst hr
      rw [flatL_append, List.append_assoc, hq _ _ _ h2, hp _ _ _ h1]

theorem sound_pChoice {p q : P} (hp : Sound p) (hq : Sound q) : Sound (pChoice p q) := by
  intro ts out rest h
  unfold pChoice at h
  cases h1 : p ts with
  | none => simp [h1] at h; exact hq _ _ _ h
  | some r => simp [h1] at h; subst h; exact hp _ _ _ h1

theorem sound_pOpt {p : P} (hp : Sound p) : Sound (pOpt p) :=
  sound_pChoice hp sound_pEmpty

theorem sound_pMany {p : P} (hp : Sound p) : ∀ f, Sound (pMany f p) := by
  intro f
  induction f with
  | zero => exact sound_pEmpty
  | succ f ih =>
    intro ts out rest h
    unfold pMany at h
    cases h1 : p ts with
    | none =>
      simp [h1] at h
      obtain ⟨h2, h3⟩ := h
      subst h2; subst h3
      rfl
    | some r1 =>
      obtain ⟨a, ts1⟩ := r1
      simp [h1] at h
      cases h2 : pMany f p ts1 with
      | none => simp [h2] at h
      | some r2 =>
        obtain ⟨b, ts2⟩ := r2
        simp [h2] at h
        obtain ⟨ho, hr⟩ := h
        subst ho; subst hr
        rw [flatL_append, List.append_assoc, ih _ _ _ h2, hp _ _ _ h1]

theorem sound_pNode {p : P} (kind : String) (hp : Sound p) : Sound (pNode kind p) := by
  intro ts out rest h
  unfold pNode at h
  cases h1 : p ts with
  | none => simp [h1] at h
  | some r1 =>
    obtain ⟨a, ts1⟩ := r1
    simp [h1] at h
    obtain ⟨ho, hr⟩ := h
    subst ho; subst hr
    simp [flatL, flatT]
    exact hp _ _ _ h1

theorem sound_pLex {f : Token → Option Tree}
    (hf : ∀ t tr, f t = some tr → flatT tr = [t]) : Sound (pLex f) :=
  sound_pSeq sound_pTrivia (sound_pRaw hf)

theorem sound_pKw (s : String) : Sound (pKw s) := by
  apply sound_pLex
  intro t tr h
  by_cases he : t = Token.kw s
  · simp [he] at h; subst h; rw [he]; rfl
  · simp [he] at h

theorem sound_pIdent : Sound pIdent := by
  apply sound_pLex
  intro t tr h
  cases t <;> simp at h <;> subst h <;> rfl

theorem sound_pNum : Sound pNum := by
  apply sound_pLex
  intro t tr h
  cases t <;> simp at h <;> subst h <;> rfl

theorem sound_pStr : Sound pStr := by
  apply sound_pLex
  intro t tr h
  cases t <;> simp at h <;> subst h <;> rfl

theorem sound_pBool : Sound pBool := by
  apply sound_pLex
  intro t tr h
  cases t <;> simp at h
  case kw s =>
    by_cases hs : s ∈ boolStrings
    · simp [hs] at h; subst h; rfl
    · simp [hs] at h

theorem sound_pType : Sound pType := by
  apply sound_pLex
  intro t tr h
  cases t <;> simp at h
  case kw s =>
    by_cases hs : s ∈ typeStrings
    · simp [hs] at h; subst h; rfl
    · simp [hs] at h

/- ## Expressions: binary_expression / unary_expression -/

/-- Binding level of a binary operator, from the seven `prec.left` levels of
`binary_expression` in grammar.js (higher binds tighter). -/
def binLevel : String → Option Nat
  | "+" | "-" => some 1
  | "*" | "/" | "MOD" | "INTDV" => some 2
  | "^" => some 3
  | "=" | "<>" | "<" | ">" | "<=" | ">=" => some 4
  | "AND" | "OR" | "XOR" | "IMP" => some 5
  | "&" | "|" => some 6
  | ">>" | "<<" => some 7
  | _ => none

/-- The four `prec 8` unary prefix operators of `unary_expression`. -/
def unaryStrings : List String := ["-", "+", "NOT", "!"]

def pUnaryOp : P :=
  pLex (fun t =>
    match t with
    | .kw s => if s ∈ unaryStrings then some (.leaf t) else none
    | _ => none)

theorem sound_pUnaryOp : Sound pUnaryOp := by
  apply sound_pLex
  intro t tr h
  cases t <;> simp at h
  case kw s =>
    by_cases hs : s ∈ unaryStrings
    · simp [hs] at h; subst h; rfl
    · simp [hs] at h

/-- `argument_list` of grammar.js, over a given expression parser. -/
def pArgList (f : Nat) (expr : P) : P :=
  pNode "argument_list" (pSeq expr (pMany f (pSeq (pKw ",") expr)))

/-- `function_call` of grammar.js, over a given expression parser. -/
def pFunctionCall (f : Nat) (expr : P) : P :=
  pNode "function_call"
    (pSeq pIdent (pSeq (pKw "(") (pSeq (pOpt (pArgList f expr)) (pKw ")"))))

theorem sound_pArgList {expr : P} (f : Nat) (he : Sound expr) :
    Sound (pArgList f expr) :=
  sound_pNode _ (sound_pSeq he (sound_pMany (sound_pSeq (sound_pKw ",") he) f))

theorem sound_pFunctionCall {expr : P} (f : Nat) (he : Sound expr) :
    Sound (pFunctionCall f expr) :=
  sound_pNode _ (sound_pSeq sound_pIdent (sound_pSeq (sound_pKw "(")
    (sound_pSeq (sound_pOpt (sound_pArgList f he)) (sound_pKw ")"))))

mutual

/-- Primary expressions of the `_expression` choice: function calls,
identifiers, literals, parenthesized expressions. -/
def pPrimary : Nat → P
  | 0 => pFail
  | f + 1 =>
    pChoice (pFunctionCall f (pExpr f 1))
      (pChoice pIdent
        (pChoice pNum
          (pChoice pStr
            (pChoice pBool
              (pNode "parenthesized_expression"
                (pSeq (pKw "(") (pSeq (pExpr f 1) (pKw ")"))))))))

/-- A chain of `prec 8` unary operators over a primary: the unary operators
bind tighter than every binary level. -/
def pUnary : Nat → P
  | 0 => pFail
  | f + 1 =>
    pChoice (pNode "unary_expression" (pSeq pUnaryOp (pUnary f))) (pPrimary f)

/-- Precedence-climbing expression parser: parse a unary/primary operand and
fold in binary operators of level at least `min`. -/
def pExpr : Nat → Nat → P
  | 0, _ => pFail
  | f + 1, min => fun ts =>
    match pUnary f ts with
    | none => none
    | some (left, ts1) => climb f min left ts1

/-- The climbing loop: while the next operator has level `p ≥ min`, parse the
right operand at `p + 1` (so equal levels group to the left, as `prec.left`
demands) and wrap a `binary_expression` node. -/
def climb : Nat → Nat → List Tree → List Token → Option (List Tree × List Token)
  | 0, _, left, ts => some (left, ts)
  | f + 1, min, left, ts =>
    match ts.dropWhile isTrivia with
    | Token.kw s :: rest =>
      match binLevel s with
      | some p =>
        if min ≤ p then
          match pExpr f (p + 1) rest with
          | some (right, ts2) =>
            climb f min
              [Tree.node "binary_expression"
                (left ++ (ts.takeWhile isTrivia).map Tree.leaf ++
                  Tree.leaf (Token.kw s) :: right)]
              ts2
          | none => none
        else some (left, ts)
      | none => some (left, ts)
    | _ => some (left, ts)

end

/-- Soundness of the whole expression engine, by induction on fuel. -/
theorem exprSound : ∀ f : Nat,
    Sound (pPrimary f) ∧ Sound (pUnary f) ∧ (∀ min, Sound (pExpr f min)) ∧
    (∀ min left ts out rest, climb f min left ts = some (out, rest) →
      flatL out ++ rest = flatL left ++ ts) := by
  intro f
  induction f with
  | zero =>
    refine ⟨sound_pFail, sound_pFail, fun _ => sound_pFail, ?_⟩
    intro min left ts out rest h
    simp [climb] at h
    obtain ⟨h1, h2⟩ := h
    subst h1; subst h2
    rfl
  | succ f ih =>
    obtain ⟨ihP, ihU, ihE, ihC⟩ := ih
    have hPrim : Sound (pPrimary (f + 1)) := by
      show Sound (pChoice _ _)
      exact sound_pChoice (sound_pFunctionCall f (ihE 1))
        (sound_pChoice sound_pIdent
          (sound_pChoice sound_pNum
            (sound_pChoice sound_pStr
              (sound_pChoice sound_pBool
                (sound_pNode _ (sound_pSeq (sound_pKw "(")
                  (sound_pSeq (ihE 1) (sound_pKw ")"))))))))
    have hUn : Sound (pUnary (f + 1)) := by
      show Sound (pChoice _ _)
      exact sound_pChoice (sound_pNode _ (sound_pSeq sound_pUnaryOp ihU)) ihP
    have hExpr : ∀ min, Sound (pExpr (f + 1) min) := by
      intro min ts out rest h
      unfold pExpr at h
      cases h1 : pUnary f ts with
      | none => simp [h1] at h
      | some r1 =>
        obtain ⟨left, ts1⟩ := r1
        simp [h1] at h
        calc flatL out ++ rest = flatL left ++ ts1 := ihC min left ts1 out rest h
          _ = ts := ihU _ _ _ h1
    refine ⟨hPrim, hUn, hExpr, ?_⟩
    intro min left ts out rest h
    unfold climb at h
    have htd : ts.takeWhile isTrivia ++ ts.dropWhile isTrivia = ts :=
      List.takeWhile_append_dropWhile isTrivia ts
    cases hd : ts.dropWhile isTrivia with
    | nil =>
      simp [hd] at h
      obtain ⟨h1, h2⟩ := h
      subst h1; subst h2
      rfl
    | cons t rest0 =>
      cases t with
      | kw s =>
        rw [hd] at h
        cases hb : binLevel s with
        | none =>
          simp [hb] at h
          obtain ⟨h1, h2⟩ := h
          subst h1; subst h2
          rfl
        | some p =>
          simp [hb] at h
          by_cases hm : min ≤ p
          · simp [hm] at h
            cases h2 : pExpr f (p + 1) rest0 with
            | none => simp [h2] at h
            | some r2 =>
              obtain ⟨right, ts2⟩ := r2
              simp [h2] at h
              have hrec := ihC min _ ts2 out rest h
              have hrt : flatL right ++ ts2 = rest0 := ihE (p + 1) _ _ _ h2
              rw [hrec]
              have hflat :
                  flatL [Tree.node "binary_expression"
                    (left ++ ((ts.takeWhile isTrivia).map Tree.leaf ++
                      Tree.leaf (Token.kw s) :: right))] ++ ts2 =
                  flatL left ++ (ts.takeWhile isTrivia ++
                    Token.kw s :: (flatL right ++ ts2)) := by
                simp [flatL, flatT, flatL_append, flatL_map_leaf]
              rw [hflat, hrt, ← hd, htd]
          · simp [hm] at h
            obtain ⟨h1, h2⟩ := h
            subst h1; subst h2
            rfl
      | ident s =>
        rw [hd] at h
        simp at h
        obtain ⟨h1, h2⟩ := h
        subst h1; subst h2
        rfl
      | num s =>
        rw [hd] at h
        simp at h
        obtain ⟨h1, h2⟩ := h
        subst h1; subst h2
        rfl
      | str s =>
        rw [hd] at h
        simp at h
        obtain ⟨h1, h2⟩ := h
        subst h1; subst h2
        rfl
      | ws s =>
        rw [hd] at h
        simp at h
        obtain ⟨h1, h2⟩ := h
        subst h1; subst h2
        rfl
      | comment s =>
        rw [hd] at h
        simp at h
        obtain ⟨h1, h2⟩ := h
        subst h1; subst h2
        rfl

/- ## Statements -/

/-- The eight assignment operators of the `assignment` rule. -/
def assignStrings : List String := ["=", "*=", "+=", "-=", "/=", "\\=", "^=", "&="]

def pAssignOp : P :=
  pLex (fun t =>
    match t with
    | .kw s => if s ∈ assignStrings then some (.leaf t) else none
    | _ => none)

/-- `assignment` of grammar.js. -/
def pAssignment (expr : P) : P :=
  pNode "assignment" (pSeq pIdent (pSeq pAssignOp expr))

/-- `variable_declaration` of grammar.js: `Dim`/`Public`, one identifier,
optional `As` type. -/
def pVariableDeclaration : P :=
  pNode "variable_declaration"
    (pSeq (pChoice (pKw "Dim") (pKw "Public"))
      (pSeq pIdent (pOpt (pSeq (pKw "As") pType))))

/-- `constant_declaration` of grammar.js. -/
def pConstantDeclaration (f : Nat) (expr : P) : P :=
  pNode "constant_declaration"
    (pChoice
      (pSeq (pKw "Const") (pSeq pIdent (pSeq (pKw "=") expr)))
      (pSeq (pKw "ConstTable")
        (pSeq (pMany f (pSeq pIdent (pSeq (pKw "=") expr))) (pKw "EndConstTable"))))

/-- `parameter_list` of grammar.js. -/
def pParameterList (f : Nat) : P :=
  pNode "parameter_list"
    (pSeq (pKw "(")
      (pSeq (pOpt (pSeq pIdent (pMany f (pSeq (pKw ",") pIdent)))) (pKw ")")))

/-- `program_structure` of grammar.js. -/
def pProgramStructure (f : Nat) (stmt : P) : P :=
  pNode "program_structure"
    (pChoice (pSeq (pKw "BeginProg") (pSeq (pMany f stmt) (pKw "EndProg")))
      (pChoice
        (pSeq (pKw "Function") (pSeq pIdent (pSeq (pOpt (pParameterList f))
          (pSeq (pMany f stmt) (pKw "EndFunction")))))
        (pSeq (pKw "Sub") (pSeq pIdent (pSeq (pOpt (pParameterList f))
          (pSeq (pMany f stmt) (pKw "EndSub")))))))

/-- `if_statement` of grammar.js (both `ElseIf` and `Else If` spellings open
an else-if clause). -/
def pIfStatement (f : Nat) (stmt expr : P) : P :=
  pNode "if_statement"
    (pSeq (pKw "If") (pSeq expr (pSeq (pKw "Then") (pSeq (pMany f stmt)
      (pSeq (pMany f (pSeq (pChoice (pKw "ElseIf") (pSeq (pKw "Else") (pKw "If")))
          (pSeq expr (pSeq (pKw "Then") (pMany f stmt)))))
        (pSeq (pOpt (pSeq (pKw "Else") (pMany f stmt))) (pKw "EndIf")))))))

/-- `for_loop` of grammar.js: the trailing loop-variable identifier after
`Next` is optional and unconstrained (the `prec.right` of the rule makes the
parser attach it to the loop when present). -/
def pForLoop (f : Nat) (stmt expr : P) : P :=
  pNode "for_loop"
    (pSeq (pKw "For") (pSeq pIdent (pSeq (pKw "=") (pSeq expr (pSeq (pKw "To")
      (pSeq expr (pSeq (pOpt (pSeq (pKw "Step") expr))
        (pSeq (pMany f stmt) (pSeq (pKw "Next") (pOpt pIdent))))))))))

/-- `while_loop` of grammar.js. -/
def pWhileLoop (f : Nat) (stmt expr : P) : P :=
  pNode "while_loop"
    (pSeq (pKw "While") (pSeq expr (pSeq (pMany f stmt) (pKw "Wend"))))

/-- `do_loop` of grammar.js (`prec.right`: `Loop Until`/`Loop While` are
preferred over a bare `Loop`). -/
def pDoLoop (f : Nat) (stmt expr : P) : P :=
  pNode "do_loop"
    (pSeq (pKw "Do") (pSeq (pMany f stmt)
      (pChoice (pSeq (pKw "Loop") (pSeq (pKw "Until") expr))
        (pChoice (pSeq (pKw "Loop") (pSeq (pKw "While") expr)) (pKw "Loop")))))

/-- `select_statement` of grammar.js. -/
def pSelectStatement (f : Nat) (stmt expr : P) : P :=
  pNode "select_statement"
    (pSeq (pKw "Select") (pSeq (pKw "Case") (pSeq expr
      (pSeq (pMany f (pChoice
          (pSeq (pKw "Case") (pSeq expr (pMany f stmt)))
          (pChoice (pSeq (pKw "Case") (pSeq (pKw "Is") (pSeq expr (pMany f stmt))))
            (pSeq (pKw "Case") (pSeq (pKw "Else") (pMany f stmt))))))
        (pKw "EndSelect")))))

/-- `control_structure` of grammar.js. -/
def pControlStructure (f : Nat) (stmt expr : P) : P :=
  pNode "control_structure"
    (pChoice (pIfStatement f stmt expr)
      (pChoice (pForLoop f stmt expr)
        (pChoice (pWhileLoop f stmt expr)
          (pChoice (pDoLoop f stmt expr) (pSelectStatement f stmt expr)))))

/-- `scan_structure` of grammar.js. -/
def pScanStructure (f : Nat) (stmt expr : P) : P :=
  pNode "scan_structure"
    (pChoice
      (pSeq (pKw "Scan") (pSeq (pKw "(") (pSeq expr (pSeq (pKw ",")
        (pSeq pIdent (pSeq (pKw ",") (pSeq expr (pSeq (pKw ",") (pSeq expr
          (pSeq (pKw ")") (pSeq (pMany f stmt) (pKw "NextScan"))))))))))))
      (pChoice
        (pSeq (pKw "SubScan") (pSeq (pKw "(") (pSeq expr (pSeq (pKw ",")
          (pSeq pIdent (pSeq (pKw ")") (pSeq (pMany f stmt) (pKw "NextSubScan"))))))))
        (pSeq (pKw "SlowSequence") (pSeq (pMany f stmt) (pKw "EndSequence")))))

/-- `menu_item` of grammar.js: `MenuItem <string> <identifier>`. -/
def pMenuItem : P :=
  pNode "menu_item" (pSeq (pKw "MenuItem") (pSeq pStr pIdent))

/-- `menu_structure` of grammar.js: note that `SubMenu` requires a name
identifier before its items while `DisplayMenu` does not. -/
def pMenuStructure (f : Nat) : P :=
  pNode "menu_structure"
    (pChoice (pSeq (pKw "DisplayMenu") (pSeq (pMany f pMenuItem) (pKw "EndMenu")))
      (pSeq (pKw "SubMenu") (pSeq pIdent (pSeq (pMany f pMenuItem) (pKw "EndSubMenu")))))

/-- `table_structure` of grammar.js: `DataTable` is followed directly by an
identifier, a boolean and an expression (no parentheses or commas), and
`CallTable` directly by an identifier. -/
def pTableStructure (f : Nat) (stmt expr : P) : P :=
  pNode "table_structure"
    (pChoice
      (pSeq (pKw "DataTable") (pSeq pIdent (pSeq pBool (pSeq expr
        (pSeq (pMany f stmt) (pKw "EndTable"))))))
      (pSeq (pKw "CallTable") pIdent))

/-- `preprocessor_directive` of grammar.js. -/
def pPreprocessorDirective (f : Nat) (stmt expr : P) : P :=
  pNode "preprocessor_directive"
    (pChoice
      (pSeq (pKw "#If") (pSeq expr (pSeq (pMany f stmt)
        (pSeq (pOpt (pSeq (pKw "#Else") (pMany f stmt))) (pKw "#EndIf")))))
      (pChoice
        (pSeq (pKw "#IfDef") (pSeq pIdent (pSeq (pMany f stmt)
          (pSeq (pOpt (pSeq (pKw "#Else") (pMany f stmt))) (pKw "#EndIf")))))
        (pChoice (pSeq (pKw "#UnDef") pIdent)
          (pSeq (pKw "Include") pStr))))

/-- `_statement` of grammar.js, in the grammar's choice order (the `comment`
alternative is subsumed by the `extras` handling of trivia). -/
def pStmt : Nat → P
  | 0 => pFail
  | f + 1 =>
    pChoice (pProgramStructure f (pStmt f))
      (pChoice pVariableDeclaration
        (pChoice (pConstantDeclaration f (pExpr f 1))
          (pChoice (pAssignment (pExpr f 1))
            (pChoice (pFunctionCall f (pExpr f 1))
              (pChoice (pControlStructure f (pStmt f) (pExpr f 1))
                (pChoice (pScanStructure f (pStmt f) (pExpr f 1))
                  (pChoice (pMenuStructure f)
                    (pChoice (pTableStructure f (pStmt f) (pExpr f 1))
                      (pPreprocessorDirective f (pStmt f) (pExpr f 1))))))))))

/-- `source_file` of grammar.js, with trailing extras. -/
def pSourceFile (f : Nat) : P :=
  pNode "source_file" (pSeq (pMany f (pStmt f)) pTrivia)

/-- Parse a complete token stream into a `source_file` tree (the whole input
must be consumed). -/
def parseProgram (f : Nat) (ts : List Token) : Option Tree :=
  match pSourceFile f ts with
  | some ([t], []) => some t
  | _ => none

/-- The full pipeline on source text, with sufficient fuel. -/
def parseSource (s : String) : Option Tree :=
  match tokenize (s.data.length + 1) s.data with
  | none => none
  | some ts => parseProgram (ts.length + 1) ts

/- ## Soundness of the statement parsers -/

theorem sound_pAssignOp : Sound pAssignOp := by
  apply sound_pLex
  intro t tr h
  cases t <;> simp at h
  case kw s =>
    by_cases hs : s ∈ assignStrings
    · simp [hs] at h; subst h; rfl
    · simp [hs] at h

theorem sound_pAssignment {expr : P} (he : Sound expr) : Sound (pAssignment expr) :=
  sound_pNode _ (sound_pSeq sound_pIdent (sound_pSeq sound_pAssignOp he))

theorem sound_pVariableDeclaration : Sound pVariableDeclaration :=
  sound_pNode _ (sound_pSeq (sound_pChoice (sound_pKw "Dim") (sound_pKw "Public"))
    (sound_pSeq sound_pIdent (sound_pOpt (sound_pSeq (sound_pKw "As") sound_pType))))

theorem sound_pConstantDeclaration {expr : P} (f : Nat) (he : Sound expr) :
    Sound (pConstantDeclaration f expr) :=
  sound_pNode _ (sound_pChoice
    (sound_pSeq (sound_pKw "Const") (sound_pSeq sound_pIdent (sound_pSeq (sound_pKw "=") he)))
    (sound_pSeq (sound_pKw "ConstTable")
      (sound_pSeq (sound_pMany (sound_pSeq sound_pIdent (sound_pSeq (sound_pKw "=") he)) f)
        (sound_pKw "EndConstTable"))))

theorem sound_pParameterList (f : Nat) : Sound (pParameterList f) :=
  sound_pNode _ (sound_pSeq (sound_pKw "(")
    (sound_pSeq (sound_pOpt (sound_pSeq sound_pIdent
      (sound_pMany (sound_pSeq (sound_pKw ",") sound_pIdent) f))) (sound_pKw ")")))

theorem sound_pProgramStructure {stmt : P} (f : Nat) (hs : Sound stmt) :
    Sound (pProgramStructure f stmt) :=
  sound_pNode _ (sound_pChoice
    (sound_pSeq (sound_pKw "BeginProg")
      (sound_pSeq (sound_pMany hs f) (sound_pKw "EndProg")))
    (sound_pChoice
      (sound_pSeq (sound_pKw "Function") (sound_pSeq sound_pIdent
        (sound_pSeq (sound_pOpt (sound_pParameterList f))
          (sound_pSeq (sound_pMany hs f) (sound_pKw "EndFunction")))))
      (sound_pSeq (sound_pKw "Sub") (sound_pSeq sound_pIdent
        (sound_pSeq (sound_pOpt (sound_pParameterList f))
          (sound_pSeq (sound_pMany hs f) (sound_pKw "EndSub")))))))

theorem sound_pIfStatement {stmt expr : P} (f : Nat) (hs : Sound stmt) (he : Sound expr) :
    Sound (pIfStatement f stmt expr) :=
  sound_pNode _ (sound_pSeq (sound_pKw "If") (sound_pSeq he
    (sound_pSeq (sound_pKw "Then") (sound_pSeq (sound_pMany hs f)
      (sound_pSeq (sound_pMany (sound_pSeq
          (sound_pChoice (sound_pKw "ElseIf") (sound_pSeq (sound_pKw "Else") (sound_pKw "If")))
          (sound_pSeq he (sound_pSeq (sound_pKw "Then") (sound_pMany hs f)))) f)
        (sound_pSeq (sound_pOpt (sound_pSeq (sound_pKw "Else") (sound_pMany hs f)))
          (sound_pKw "EndIf")))))))

theorem sound_pForLoop {stmt expr : P} (f : Nat) (hs : Sound stmt) (he : Sound expr) :
    Sound (pForLoop f stmt expr) :=
  sound_pNode _ (sound_pSeq (sound_pKw "For") (sound_pSeq sound_pIdent
    (sound_pSeq (sound_pKw "=") (sound_pSeq he (sound_pSeq (sound_pKw "To")
      (sound_pSeq he (sound_pSeq (sound_pOpt (sound_pSeq (sound_pKw "Step") he))
        (sound_pSeq (sound_pMany hs f)
          (sound_pSeq (sound_pKw "Next") (sound_pOpt sound_pIdent))))))))))

theorem sound_pWhileLoop {stmt expr : P} (f : Nat) (hs : Sound stmt) (he : Sound expr) :
    Sound (pWhileLoop f stmt expr) :=
  sound_pNode _ (sound_pSeq (sound_pKw "While")
    (sound_pSeq he (sound_pSeq (sound_pMany hs f) (sound_pKw "Wend"))))

theorem sound_pDoLoop {stmt expr : P} (f : Nat) (hs : Sound stmt) (he : Sound expr) :
    Sound (pDoLoop f stmt expr) :=
  sound_pNode _ (sound_pSeq (sound_pKw "Do") (sound_pSeq (sound_pMany hs f)
    (sound_pChoice (sound_pSeq (sound_pKw "Loop") (sound_pSeq (sound_pKw "Until") he))
      (sound_pChoice (sound_pSeq (sound_pKw "Loop") (sound_pSeq (sound_pKw "While") he))
        (sound_pKw "Loop")))))

theorem sound_pSelectStatement {stmt expr : P} (f : Nat) (hs : Sound stmt) (he : Sound expr) :
    Sound (pSelectStatement f stmt expr) :=
  sound_pNode _ (sound_pSeq (sound_pKw "Select") (sound_pSeq (sound_pKw "Case")
    (sound_pSeq he (sound_pSeq (sound_pMany (sound_pChoice
        (sound_pSeq (sound_pKw "Case") (sound_pSeq he (sound_pMany hs f)))
        (sound_pChoice
          (sound_pSeq (sound_pKw "Case") (sound_pSeq (sound_pKw "Is")
            (sound_pSeq he (sound_pMany hs f))))
          (sound_pSeq (sound_pKw "Case") (sound_pSeq (sound_pKw "Else")
            (sound_pMany hs f))))) f)
      (sound_pKw "EndSelect")))))

theorem sound_pControlStructure {stmt expr : P} (f : Nat) (hs : Sound stmt) (he : Sound expr) :
    Sound (pControlStructure f stmt expr) :=
  sound_pNode _ (sound_pChoice (sound_pIfStatement f hs he)
    (sound_pChoice (sound_pForLoop f hs he)
      (sound_pChoice (sound_pWhileLoop f hs he)
        (sound_pChoice (sound_pDoLoop f hs he) (sound_pSelectStatement f hs he)))))

theorem sound_pScanStructure {stmt expr : P} (f : Nat) (hs : Sound stmt) (he : Sound expr) :
    Sound (pScanStructure f stmt expr) :=
  sound_pNode _ (sound_pChoice
    (sound_pSeq (sound_pKw "Scan") (sound_pSeq (sound_pKw "(") (sound_pSeq he
      (sound_pSeq (sound_pKw ",") (sound_pSeq sound_pIdent (sound_pSeq (sound_pKw ",")
        (sound_pSeq he (sound_pSeq (sound_pKw ",") (sound_pSeq he
          (sound_pSeq (sound_pKw ")")
            (sound_pSeq (sound_pMany hs f) (sound_pKw "NextScan"))))))))))))
    (sound_pChoice
      (sound_pSeq (sound_pKw "SubScan") (sound_pSeq (sound_pKw "(") (sound_pSeq he
        (sound_pSeq (sound_pKw ",") (sound_pSeq sound_pIdent (sound_pSeq (sound_pKw ")")
          (sound_pSeq (sound_pMany hs f) (sound_pKw "NextSubScan"))))))))
      (sound_pSeq (sound_pKw "SlowSequence")
        (sound_pSeq (sound_pMany hs f) (sound_pKw "EndSequence")))))

theorem sound_pMenuItem : Sound pMenuItem :=
  sound_pNode _ (sound_pSeq (sound_pKw "MenuItem") (sound_pSeq sound_pStr sound_pIdent))

theorem sound_pMenuStructure (f : Nat) : Sound (pMenuStructure f) :=
  sound_pNode _ (sound_pChoice
    (sound_pSeq (sound_pKw "DisplayMenu")
      (sound_pSeq (sound_pMany sound_pMenuItem f) (sound_pKw "EndMenu")))
    (sound_pSeq (sound_pKw "SubMenu") (sound_pSeq sound_pIdent
      (sound_pSeq (sound_pMany sound_pMenuItem f) (sound_pKw "EndSubMenu")))))

theorem sound_pTableStructure {stmt expr : P} (f : Nat) (hs : Sound stmt) (he : Sound expr) :
    Sound (pTableStructure f stmt expr) :=
  sound_pNode _ (sound_pChoice
    (sound_pSeq (sound_pKw "DataTable") (sound_pSeq sound_pIdent (sound_pSeq sound_pBool
      (sound_pSeq he (sound_pSeq (sound_pMany hs f) (sound_pKw "EndTable"))))))
    (sound_pSeq (sound_pKw "CallTable") sound_pIdent))

theorem sound_pPreprocessorDirective {stmt expr : P} (f : Nat)
    (hs : Sound stmt) (he : Sound expr) :
    Sound (pPreprocessorDirective f stmt expr) :=
  sound_pNode _ (sound_pChoice
    (sound_pSeq (sound_pKw "#If") (sound_pSeq he (sound_pSeq (sound_pMany hs f)
      (sound_pSeq (sound_pOpt (sound_pSeq (sound_pKw "#Else") (sound_pMany hs f)))
        (sound_pKw "#EndIf")))))
    (sound_pChoice
      (sound_pSeq (sound_pKw "#IfDef") (sound_pSeq sound_pIdent
        (sound_pSeq (sound_pMany hs f)
          (sound_pSeq (sound_pOpt (sound_pSeq (sound_pKw "#Else") (sound_pMany hs f)))
            (sound_pKw "#EndIf")))))
      (sound_pChoice (sound_pSeq (sound_pKw "#UnDef") sound_pIdent)
        (sound_pSeq (sound_pKw "Include") sound_pStr))))

theorem sound_pStmt : ∀ f, Sound (pStmt f) := by
  intro f
  induction f with
  | zero => exact sound_pFail
  | succ f ih =>
    have he : Sound (pExpr f 1) := (exprSound f).2.2.1 1
    show Sound (pChoice _ _)
    exact sound_pChoice (sound_pProgramStructure f ih)
      (sound_pChoice sound_pVariableDeclaration
        (sound_pChoice (sound_pConstantDeclaration f he)
          (sound_pChoice (sound_pAssignment he)
            (sound_pChoice (sound_pFunctionCall f he)
              (sound_pChoice (sound_pControlStructure f ih he)
                (sound_pChoice (sound_pScanStructure f ih he)
                  (sound_pChoice (sound_pMenuStructure f)
                    (sound_pChoice (sound_pTableStructure f ih he)
                      (sound_pPreprocessorDirective f ih he)))))))))

theorem sound_pSourceFile (f : Nat) : Sound (pSourceFile f) :=
  sound_pNode _ (sound_pSeq (sound_pMany (sound_pStmt f) f) sound_pTrivia)

/-- A complete parse covers exactly the whole token stream with its leaves. -/
theorem parseProgram_flat {f : Nat} {ts : List Token} {t : Tree}
    (h : parseProgram f ts = some t) : flatT t = ts := by
  unfold parseProgram at h
  cases h1 : pSourceFile f ts with
  | none => rw [h1] at h; simp at h
  | some r =>
    obtain ⟨out, rest⟩ := r
    rw [h1] at h
    cases out with
    | nil => simp at h
    | cons t0 out1 =>
      cases out1 with
      | cons t1 out2 => simp at h
      | nil =>
        cases rest with
        | cons u us => simp at h
        | nil =>
          simp at h
          subst h
          have h2 := sound_pSourceFile f ts [t0] [] h1
          simpa [flatL] using h2

/- ## Claim C1 -/

/-- **C1.** In every expression mixing an additive operator (`+` or `-`) with
a multiplicative operator (`*`, `/`, `MOD`, `INTDV`), the multiplicative
operator binds tighter, in both operand orders; in particular `2+3*4` lexes
and parses as `BinaryExpr(+, 2, BinaryExpr(*, 3, 4))`. -/
theorem c1_mul_binds_tighter_than_add :
    (∀ a b c ao mo : String, (ao = "+" ∨ ao = "-") →
      (mo = "*" ∨ mo = "/" ∨ mo = "MOD" ∨ mo = "INTDV") →
      pExpr 9 1 [Token.num a, Token.kw ao, Token.num b, Token.kw mo, Token.num c] =
        some ([Tree.node "binary_expression"
          [Tree.node "number" [Tree.leaf (Token.num a)],
           Tree.leaf (Token.kw ao),
           Tree.node "binary_expression"
             [Tree.node "number" [Tree.leaf (Token.num b)],
              Tree.leaf (Token.kw mo),
              Tree.node "number" [Tree.leaf (Token.num c)]]]], []) ∧
      pExpr 9 1 [Token.num a, Token.kw mo, Token.num b, Token.kw ao, Token.num c] =
        some ([Tree.node "binary_expression"
          [Tree.node "binary_expression"
             [Tree.node "number" [Tree.leaf (Token.num a)],
              Tree.leaf (Token.kw mo),
              Tree.node "number" [Tree.leaf (Token.num b)]],
           Tree.leaf (Token.kw ao),
           Tree.node "number" [Tree.leaf (Token.num c)]]], [])) ∧
    tokenize 8 "2+3*4".data =
      some [Token.num "2", Token.kw "+", Token.num "3", Token.kw "*", Token.num "4"] := by
  refine ⟨?_, rfl⟩
  intro a b c ao mo h1 h2
  rcases h1 with rfl | rfl <;> rcases h2 with rfl | rfl | rfl | rfl <;> exact ⟨rfl, rfl⟩

theorem c1_mul_binds_tighter_than_add_witness :
    pExpr 9 1 [Token.num "2", Token.kw "+", Token.num "3", Token.kw "*", Token.num "4"] =
      some ([Tree.node "binary_expression"
        [Tree.node "number" [Tree.leaf (Token.num "2")],
         Tree.leaf (Token.kw "+"),
         Tree.node "binary_expression"
           [Tree.node "number" [Tree.leaf (Token.num "3")],
            Tree.leaf (Token.kw "*"),
            Tree.node "number" [Tree.leaf (Token.num "4")]]]], []) :=
  (c1_mul_binds_tighter_than_add.1 "2" "3" "4" "+" "*" (Or.inl rfl) (Or.inl rfl)).1

/- ## Claim C2 -/

/-- The operator strings of each of the seven `prec.left` binary levels of
`binary_expression` (level 0 is unused and empty). -/
def levelOps : Fin 8 → List String
  | 0 => []
  | 1 => ["+", "-"]
  | 2 => ["*", "/", "MOD", "INTDV"]
  | 3 => ["^"]
  | 4 => ["=", "<>", "<", ">", "<=", ">="]
  | 5 => ["AND", "OR", "XOR", "IMP"]
  | 6 => ["&", "|"]
  | 7 => [">>", "<<"]

/-- All twenty-one binary operator strings of the grammar. -/
def allBinStrings : List String :=
  ["+", "-", "*", "/", "MOD", "INTDV", "^", "=", "<>", "<", ">", "<=", ">=",
   "AND", "OR", "XOR", "IMP", "&", "|", ">>", "<<"]

/-- **C2.** The power operator `^` is left-associative (`2^3^2` parses as
`BinaryExpr(^, BinaryExpr(^, 2, 3), 2)`); every binary operator groups to
the left against an operator of its own level; and every unary prefix
operator (`-`, `+`, `NOT`, `!`) binds tighter than every binary operator. -/
theorem c2_power_left_assoc_unary_tighter :
    (tokenize 8 "2^3^2".data =
      some [Token.num "2", Token.kw "^", Token.num "3", Token.kw "^", Token.num "2"] ∧
     pExpr 9 1 [Token.num "2", Token.kw "^", Token.num "3", Token.kw "^", Token.num "2"] =
      some ([Tree.node "binary_expression"
        [Tree.node "binary_expression"
           [Tree.node "number" [Tree.leaf (Token.num "2")],
            Tree.leaf (Token.kw "^"),
            Tree.node "number" [Tree.leaf (Token.num "3")]],
         Tree.leaf (Token.kw "^"),
         Tree.node "number" [Tree.leaf (Token.num "2")]]], [])) ∧
    (∀ (a b c o1 o2 : String) (l : Fin 8),
      o1 ∈ levelOps l → o2 ∈ levelOps l →
      pExpr 9 1 [Token.num a, Token.kw o1, Token.num b, Token.kw o2, Token.num c] =
        some ([Tree.node "binary_expression"
          [Tree.node "binary_expression"
             [Tree.node "number" [Tree.leaf (Token.num a)],
              Tree.leaf (Token.kw o1),
              Tree.node "number" [Tree.leaf (Token.num b)]],
           Tree.leaf (Token.kw o2),
           Tree.node "number" [Tree.leaf (Token.num c)]]], [])) ∧
    (∀ (a c u b : String), u ∈ unaryStrings → b ∈ allBinStrings →
      pExpr 9 1 [Token.kw u, Token.num a, Token.kw b, Token.num c] =
        some ([Tree.node "binary_expression"
          [Tree.node "unary_expression"
             [Tree.leaf (Token.kw u),
              Tree.node "number" [Tree.leaf (Token.num a)]],
           Tree.leaf (Token.kw b),
           Tree.node "number" [Tree.leaf (Token.num c)]]], [])) := by
  refine ⟨⟨rfl, rfl⟩, ?_, ?_⟩
  · intro a b c o1 o2 l h1 h2
    fin_cases l
    · exact absurd h1 (List.not_mem_nil o1)
    · have g1 : o1 ∈ ["+", "-"] := h1
      have g2 : o2 ∈ ["+", "-"] := h2
      fin_cases g1 <;> fin_cases g2 <;> rfl
    · have g1 : o1 ∈ ["*", "/", "MOD", "INTDV"] := h1
      have g2 : o2 ∈ ["*", "/", "MOD", "INTDV"] := h2
      fin_cases g1 <;> fin_cases g2 <;> rfl
    · have g1 : o1 ∈ ["^"] := h1
      have g2 : o2 ∈ ["^"] := h2
      fin_cases g1 <;> fin_cases g2 <;> rfl
    · have g1 : o1 ∈ ["=", "<>", "<", ">", "<=", ">="] := h1
      have g2 : o2 ∈ ["=", "<>", "<", ">", "<=", ">="] := h2
      fin_cases g1 <;> fin_cases g2 <;> rfl
    · have g1 : o1 ∈ ["AND", "OR", "XOR", "IMP"] := h1
      have g2 : o2 ∈ ["AND", "OR", "XOR", "IMP"] := h2
      fin_cases g1 <;> fin_cases g2 <;> rfl
    · have g1 : o1 ∈ ["&", "|"] := h1
      have g2 : o2 ∈ ["&", "|"] := h2
      fin_cases g1 <;> fin_cases g2 <;> rfl
    · have g1 : o1 ∈ [">>", "<<"] := h1
      have g2 : o2 ∈ [">>", "<<"] := h2
      fin_cases g1 <;> fin_cases g2 <;> rfl
  · intro a c u b hu hb
    have gu : u ∈ ["-", "+", "NOT", "!"] := hu
    fin_cases gu <;> fin_cases hb <;> rfl

theorem c2_power_left_assoc_unary_tighter_witness :
    pExpr 9 1 [Token.num "2", Token.kw "^", Token.num "3", Token.kw "^", Token.num "2"] =
      some ([Tree.node "binary_expression"
        [Tree.node "binary_expression"
           [Tree.node "number" [Tree.leaf (Token.num "2")],
            Tree.leaf (Token.kw "^"),
            Tree.node "number" [Tree.leaf (Token.num "3")]],
         Tree.leaf (Token.kw "^"),
         Tree.node "number" [Tree.leaf (Token.num "2")]]], []) :=
  c2_power_left_assoc_unary_tighter.2.1 "2" "3" "2" "^" "^" 3 (by decide) (by decide)

/- ## Claim C3 -/

/-- **C3.** For every input text that lexes and parses completely,
concatenating the source text covered by the parse tree's leaves, taken in
left-to-right order, reconstructs the original text exactly. -/
theorem c3_span_roundtrip (cs : List Char) (f1 f2 : Nat) (ts : List Token) (t : Tree)
    (h1 : tokenize f1 cs = some ts) (h2 : parseProgram f2 ts = some t) :
    toksChars (flatT t) = cs := by
  rw [parseProgram_flat h2]
  exact tokenize_sound f1 cs ts h1

/-- A concrete program exercising comments, whitespace, declarations,
assignment and expressions, for the C3 witness. -/
def rtText : String :=
  "BeginProg 'main loop\n  Dim x As Float\n  x = 2+3*4\nEndProg"

def rtToks : List Token := (tokenize 80 rtText.data).getD []

def rtTree : Tree := (parseProgram 40 rtToks).getD (Tree.node "missing" [])

theorem c3_span_roundtrip_witness :
    tokenize 80 rtText.data = some rtToks ∧
    parseProgram 40 rtToks = some rtTree ∧
    toksChars (flatT rtTree) = rtText.data :=
  ⟨rfl, rfl, c3_span_roundtrip rtText.data 80 40 rtToks rtTree rfl rfl⟩

/- ## Claim C4 -/

/-- **C4 counterexample.** Keyword matching is not case-insensitive: `True`
lexes as a keyword token but the casing variant `tRuE` lexes as a plain
identifier (a different token kind), and `beginprog` likewise fails to be
the keyword `BeginProg`. -/
theorem c4_case_insensitive_cex :
    tokenize 8 "True".data = some [Token.kw "True"] ∧
    tokenize 8 "tRuE".data = some [Token.ident "tRuE"] ∧
    pExpr 3 1 [Token.ident "tRuE"] =
      some ([Tree.node "identifier" [Tree.leaf (Token.ident "tRuE")]], []) ∧
    tokenize 16 "beginprog".data = some [Token.ident "beginprog"] :=
  ⟨rfl, rfl, rfl, rfl⟩

/-- **C4 (amended).** Exactly the six spellings `True`, `False`, `TRUE`,
`FALSE`, `true`, `false` are boolean literals (each lexing as a keyword
token and parsing as a `boolean` node); every other keyword of the grammar
is recognised only in its canonical spelling, and other casings such as
`tRuE` lex as identifiers. -/
theorem c4_exact_keyword_spellings :
    (∀ s, s ∈ boolStrings →
      tokenize 8 s.data = some [Token.kw s] ∧
      pExpr 3 1 [Token.kw s] = some ([Tree.node "boolean" [Tree.leaf (Token.kw s)]], [])) ∧
    (∀ s, s ∈ kwStrings → tokenize 16 s.data = some [Token.kw s]) ∧
    tokenize 8 "tRuE".data = some [Token.ident "tRuE"] := by
  refine ⟨?_, ?_, rfl⟩
  · intro s h
    fin_cases h <;> exact ⟨rfl, rfl⟩
  · intro s h
    fin_cases h <;> rfl

theorem c4_exact_keyword_spellings_witness :
    tokenize 8 "true".data = some [Token.kw "true"] ∧
    pExpr 3 1 [Token.kw "true"] =
      some ([Tree.node "boolean" [Tree.leaf (Token.kw "true")]], []) :=
  c4_exact_keyword_spellings.1 "true" (by decide)

/- ## Claim C5 -/

/-- **C5 counterexample.** `10UL` and `10Ul` are not single number tokens:
the numeric suffix of the grammar is a single character, so the longest
number match is `10U` and the remaining letter lexes as an identifier. -/
theorem c5_suffix_cex :
    tokenize 8 "10UL".data = some [Token.num "10U", Token.ident "L"] ∧
    tokenize 8 "10Ul".data = some [Token.num "10U", Token.ident "l"] :=
  ⟨rfl, rfl⟩

/-- **C5 (amended).** The number forms of the grammar lex as single tokens:
binary and hexadecimal literals (without exponent or suffix), decimal
integers, decimals with fractional part and leading-dot decimals, each with
an optional exponent or (except leading-dot) a single-character suffix —
but exponent plus suffix, suffix on binary/hexadecimal/leading-dot forms,
and two-character suffixes such as `UL` all fall outside the number token. -/
theorem c5_number_token_forms :
    tokenize 8 "&hFF".data = some [Token.num "&hFF"] ∧
    tokenize 8 "&b101".data = some [Token.num "&b101"] ∧
    tokenize 8 "123".data = some [Token.num "123"] ∧
    tokenize 8 "1.5".data = some [Token.num "1.5"] ∧
    tokenize 8 ".5".data = some [Token.num ".5"] ∧
    tokenize 8 "1e5".data = some [Token.num "1e5"] ∧
    tokenize 8 "1.5e-3".data = some [Token.num "1.5e-3"] ∧
    tokenize 8 ".5e2".data = some [Token.num ".5e2"] ∧
    tokenize 8 "10U".data = some [Token.num "10U"] ∧
    tokenize 8 "1.5L".data = some [Token.num "1.5L"] ∧
    tokenize 8 "&hFFL".data = some [Token.num "&hFF", Token.ident "L"] ∧
    tokenize 8 "&b101L".data = some [Token.num "&b101", Token.ident "L"] ∧
    tokenize 8 "1e5L".data = some [Token.num "1e5", Token.ident "L"] ∧
    tokenize 8 ".5L".data = some [Token.num ".5", Token.ident "L"] ∧
    tokenize 8 "10UL".data = some [Token.num "10U", Token.ident "L"] :=
  ⟨rfl, rfl, rfl, rfl, rfl, rfl, rfl, rfl, rfl, rfl, rfl, rfl, rfl, rfl, rfl⟩

/- ## Claim C7 -/

/-- **C7 counterexample.** The parenthesized, comma-separated forms the
claim describes are rejected by the grammar: neither `CallTable(tbl)` nor
`DataTable(tbl, True, 100) ... EndTable` parses. -/
theorem c7_parenthesized_table_cex :
    parseSource "CallTable(tbl)" = none ∧
    parseSource "DataTable(tbl, True, 100)\nEndTable" = none :=
  ⟨rfl, rfl⟩

/-- **C7 (amended).** A `DataTable` statement is the keyword followed
directly by a name identifier, a boolean trigger and a size expression —
with no parentheses or commas — then a statement body terminated by
`EndTable`; `CallTable` is followed directly by a bare name identifier. -/
theorem c7_table_structure (name b size : String) (hb : b ∈ boolStrings) :
    parseProgram 9 [Token.kw "DataTable", Token.ident name, Token.kw b,
        Token.num size, Token.kw "EndTable"] =
      some (Tree.node "source_file"
        [Tree.node "table_structure"
          [Tree.leaf (Token.kw "DataTable"),
           Tree.node "identifier" [Tree.leaf (Token.ident name)],
           Tree.node "boolean" [Tree.leaf (Token.kw b)],
           Tree.node "number" [Tree.leaf (Token.num size)],
           Tree.leaf (Token.kw "EndTable")]]) ∧
    parseProgram 9 [Token.kw "CallTable", Token.ident name] =
      some (Tree.node "source_file"
        [Tree.node "table_structure"
          [Tree.leaf (Token.kw "CallTable"),
           Tree.node "identifier" [Tree.leaf (Token.ident name)]]]) := by
  fin_cases hb <;> exact ⟨rfl, rfl⟩

theorem c7_table_structure_witness :
    parseProgram 9 [Token.kw "DataTable", Token.ident "tbl", Token.kw "True",
        Token.num "100", Token.kw "EndTable"] =
      some (Tree.node "source_file"
        [Tree.node "table_structure"
          [Tree.leaf (Token.kw "DataTable"),
           Tree.node "identifier" [Tree.leaf (Token.ident "tbl")],
           Tree.node "boolean" [Tree.leaf (Token.kw "True")],
           Tree.node "number" [Tree.leaf (Token.num "100")],
           Tree.leaf (Token.kw "EndTable")]]) :=
  (c7_table_structure "tbl" "True" "100" (by decide)).1

/- ## Claim C9 -/

/-- **C9 counterexample.** `SubMenu` directly followed by its terminator
does not parse: the grammar requires a name identifier after `SubMenu`, so
it is not the case that nothing but `MenuItem` entries is required between
the opening keyword and the terminator for both menu forms. -/
theorem c9_submenu_cex : parseSource "SubMenu EndSubMenu" = none := rfl

/-- **C9 (amended).** `DisplayMenu` contains exactly zero or more
`MenuItem <string> <identifier>` entries before `EndMenu`; `SubMenu`
requires a name identifier after the keyword and then likewise contains
zero or more `MenuItem` entries before `EndSubMenu`. -/
theorem c9_menu_structure (n s h : String) :
    parseProgram 9 [Token.kw "DisplayMenu", Token.kw "EndMenu"] =
      some (Tree.node "source_file"
        [Tree.node "menu_structure"
          [Tree.leaf (Token.kw "DisplayMenu"), Tree.leaf (Token.kw "EndMenu")]]) ∧
    parseProgram 9 [Token.kw "DisplayMenu", Token.kw "MenuItem", Token.str s,
        Token.ident h, Token.kw "EndMenu"] =
      some (Tree.node "source_file"
        [Tree.node "menu_structure"
          [Tree.leaf (Token.kw "DisplayMenu"),
           Tree.node "menu_item"
             [Tree.leaf (Token.kw "MenuItem"),
              Tree.node "string" [Tree.leaf (Token.str s)],
              Tree.node "identifier" [Tree.leaf (Token.ident h)]],
           Tree.leaf (Token.kw "EndMenu")]]) ∧
    parseProgram 9 [Token.kw "SubMenu", Token.ident n, Token.kw "EndSubMenu"] =
      some (Tree.node "source_file"
        [Tree.node "menu_structure"
          [Tree.leaf (Token.kw "SubMenu"),
           Tree.node "identifier" [Tree.leaf (Token.ident n)],
           Tree.leaf (Token.kw "EndSubMenu")]]) ∧
    parseProgram 9 [Token.kw "SubMenu", Token.ident n, Token.kw "MenuItem",
        Token.str s, Token.ident h, Token.kw "EndSubMenu"] =
      some (Tree.node "source_file"
        [Tree.node "menu_structure"
          [Tree.leaf (Token.kw "SubMenu"),
           Tree.node "identifier" [Tree.leaf (Token.ident n)],
           Tree.node "menu_item"
             [Tree.leaf (Token.kw "MenuItem"),
              Tree.node "string" [Tree.leaf (Token.str s)],
              Tree.node "identifier" [Tree.leaf (Token.ident h)]],
           Tree.leaf (Token.kw "EndSubMenu")]]) ∧
    parseProgram 9 [Token.kw "SubMenu", Token.kw "EndSubMenu"] = none :=
  ⟨rfl, rfl, rfl, rfl, rfl⟩

theorem c9_menu_structure_witness :
    parseProgram 9 [Token.kw "SubMenu", Token.ident "m", Token.kw "EndSubMenu"] =
      some (Tree.node "source_file"
        [Tree.node "menu_structure"
          [Tree.leaf (Token.kw "SubMenu"),
           Tree.node "identifier" [Tree.leaf (Token.ident "m")],
           Tree.leaf (Token.kw "EndSubMenu")]]) :=
  (c9_menu_structure "m" "s" "h").2.2.1

/- ## Claim C10 -/

/-- **C10.** A variable declaration is exactly `Dim` or `Public`, one
identifier, and optionally `As` with one of the thirteen type names; a
single declaration cannot carry a comma-separated variable list, array
dimensions, or an initializer, and `As` with a non-type name is rejected. -/
theorem c10_variable_declaration :
    (∀ v kwd ty : String, kwd ∈ ["Dim", "Public"] → ty ∈ typeStrings →
      parseProgram 9 [Token.kw kwd, Token.ident v] =
        some (Tree.node "source_file"
          [Tree.node "variable_declaration"
            [Tree.leaf (Token.kw kwd),
             Tree.node "identifier" [Tree.leaf (Token.ident v)]]]) ∧
      parseProgram 9 [Token.kw kwd, Token.ident v, Token.kw "As", Token.kw ty] =
        some (Tree.node "source_file"
          [Tree.node "variable_declaration"
            [Tree.leaf (Token.kw kwd),
             Tree.node "identifier" [Tree.leaf (Token.ident v)],
             Tree.leaf (Token.kw "As"),
             Tree.node "type" [Tree.leaf (Token.kw ty)]]])) ∧
    parseSource "Dim x, y" = none ∧
    parseSource "Dim x(10)" = none ∧
    parseSource "Dim x = 5" = none ∧
    parseSource "Dim x As Foo" = none := by
  refine ⟨?_, rfl, rfl, rfl, rfl⟩
  intro v kwd ty hk ht
  fin_cases hk <;> fin_cases ht <;> exact ⟨rfl, rfl⟩

theorem c10_variable_declaration_witness :
    parseProgram 9 [Token.kw "Dim", Token.ident "x", Token.kw "As", Token.kw "Float"] =
      some (Tree.node "source_file"
        [Tree.node "variable_declaration"
          [Tree.leaf (Token.kw "Dim"),
           Tree.node "identifier" [Tree.leaf (Token.ident "x")],
           Tree.leaf (Token.kw "As"),
           Tree.node "type" [Tree.leaf (Token.kw "Float")]]]) :=
  (c10_variable_declaration.1 "x" "Dim" "Float" (by decide) (by decide)).2

/- ## Claims C6 and C8: diagnostics (modelled from the spec) -/

/-- A parse diagnostic, as described in the spec's data model. -/
structure Diag where
  message : String
deriving DecidableEq, Repr

/-- Modelled from the spec: diagnostics and missing-terminator recovery live
in the parse runtime, which is not part of src/ (grammar.js only declares
the rules).  Per the spec, a block form parses statements until its
terminator; a missing terminator at end of input is reported as a
diagnostic and the block node is still emitted, covering all consumed
input.  This models that policy for the `BeginProg ... EndProg` block. -/
def parseBeginProgRecover (f : Nat) (ts : List Token) : Option (Tree × List Diag) :=
  match ts with
  | Token.kw "BeginProg" :: rest =>
    match pMany f (pStmt f) rest with
    | none => none
    | some (body, rest2) =>
      match rest2 with
      | Token.kw "EndProg" :: rest3 =>
        if rest3.isEmpty then
          some (Tree.node "program_structure"
            (Tree.leaf (Token.kw "BeginProg") :: body ++
              [Tree.leaf (Token.kw "EndProg")]), [])
        else none
      | [] =>
        some (Tree.node "program_structure"
          (Tree.leaf (Token.kw "BeginProg") :: body),
          [Diag.mk "missing EndProg"])
      | _ => none
  | _ => none

/-- **C6.** For every input starting a `BeginProg` block whose statements
consume the rest of the input and that contains no `EndProg`, the recovering
parse produces exactly one diagnostic and still returns the program node,
whose leaves span the whole input, with the consumed statements as its
body. -/
theorem c6_beginprog_missing_endprog (f : Nat) (body : List Token) (stmts : List Tree)
    (hbody : pMany f (pStmt f) body = some (stmts, []))
    (hnoend : Token.kw "EndProg" ∉ body) :
    parseBeginProgRecover f (Token.kw "BeginProg" :: body) =
      some (Tree.node "program_structure"
        (Tree.leaf (Token.kw "BeginProg") :: stmts), [Diag.mk "missing EndProg"]) ∧
    flatT (Tree.node "program_structure" (Tree.leaf (Token.kw "BeginProg") :: stmts)) =
      Token.kw "BeginProg" :: body := by
  constructor
  · simp only [parseBeginProgRecover]
    rw [hbody]
  · have hs := sound_pMany (sound_pStmt f) f body stmts [] hbody
    simp only [List.append_nil] at hs
    simp [flatT, flatL, hs]

/-- Tokens of ` Dim x` as a `BeginProg` body for the C6 witness. -/
def c6Body : List Token :=
  [Token.ws " ", Token.kw "Dim", Token.ws " ", Token.ident "x"]

def c6Stmts : List Tree := ((pMany 5 (pStmt 5) c6Body).getD ([], [])).1

theorem c6_beginprog_missing_endprog_witness :
    parseBeginProgRecover 5 (Token.kw "BeginProg" :: c6Body) =
      some (Tree.node "program_structure"
        (Tree.leaf (Token.kw "BeginProg") :: c6Stmts), [Diag.mk "missing EndProg"]) ∧
    flatT (Tree.node "program_structure" (Tree.leaf (Token.kw "BeginProg") :: c6Stmts)) =
      Token.kw "BeginProg" :: c6Body :=
  c6_beginprog_missing_endprog 5 c6Body c6Stmts rfl (by decide)

/-- The name under an `identifier` node. -/
def identNodeName : Tree → Option String
  | .node "identifier" [.leaf (.ident s)] => some s
  | _ => none

/-- A child that is not whitespace/comment trivia. -/
def isRealChild : Tree → Bool
  | .leaf t => !isTrivia t
  | .node _ _ => true

/-- Modelled from the spec: grammar.js leaves the trailing identifier after
`Next` unconstrained and tree-sitter grammars carry no diagnostic mechanism,
so the spec's loop-variable match check ("must match the opening variable if
present — mismatch is a diagnostic, not fatal") is modelled on the parsed
`for_loop` node: compare the variable after `For` with a trailing identifier
child and report one diagnostic when they differ. -/
def forLoopCheck (t : Tree) : List Diag :=
  match t with
  | .node "for_loop" children =>
    match children.filter isRealChild with
    | _ :: v :: rest =>
      match identNodeName v with
      | some vname =>
        match rest.getLast? with
        | some lastChild =>
          match identNodeName lastChild with
          | some ename =>
            if ename = vname then []
            else [Diag.mk "Next variable does not match For variable"]
          | none => []
        | none => []
      | none => []
    | _ => []
  | _ => []

/-- Token stream of `For i = 1 To 10 Step 2  x = 1  Next j`. -/
def c8Toks (i j : String) : List Token :=
  [Token.kw "For", Token.ident i, Token.kw "=", Token.num "1", Token.kw "To",
   Token.num "10", Token.kw "Step", Token.num "2",
   Token.ident "x", Token.kw "=", Token.num "1",
   Token.kw "Next", Token.ident j]

/-- The complete `for_loop` node the grammar produces for `c8Toks`. -/
def c8ForNode (i j : String) : Tree :=
  Tree.node "for_loop"
    [Tree.leaf (Token.kw "For"),
     Tree.node "identifier" [Tree.leaf (Token.ident i)],
     Tree.leaf (Token.kw "="),
     Tree.node "number" [Tree.leaf (Token.num "1")],
     Tree.leaf (Token.kw "To"),
     Tree.node "number" [Tree.leaf (Token.num "10")],
     Tree.leaf (Token.kw "Step"),
     Tree.node "number" [Tree.leaf (Token.num "2")],
     Tree.node "assignment"
       [Tree.node "identifier" [Tree.leaf (Token.ident "x")],
        Tree.leaf (Token.kw "="),
        Tree.node "number" [Tree.leaf (Token.num "1")]],
     Tree.leaf (Token.kw "Next"),
     Tree.node "identifier" [Tree.leaf (Token.ident j)]]

/-- **C8.** For every `For i = 1 To 10 Step 2 ... Next j` with `j ≠ i`, the
grammar still produces the complete `for_loop` node (with `j` attached as
the trailing loop variable), and the modelled loop-variable check reports
exactly one diagnostic. -/
theorem c8_for_next_mismatch (i j : String) (hij : j ≠ i) :
    parseProgram 9 (c8Toks i j) =
      some (Tree.node "source_file"
        [Tree.node "control_structure" [c8ForNode i j]]) ∧
    forLoopCheck (c8ForNode i j) =
      [Diag.mk "Next variable does not match For variable"] := by
  constructor
  · rfl
  · simp [forLoopCheck, c8ForNode, identNodeName, isRealChild, isTrivia, hij]

theorem c8_for_next_mismatch_witness :
    parseProgram 9 (c8Toks "i" "j") =
      some (Tree.node "source_file"
        [Tree.node "control_structure" [c8ForNode "i" "j"]]) ∧
    forLoopCheck (c8ForNode "i" "j") =
      [Diag.mk "Next variable does not match For variable"] :=
  c8_for_next_mismatch "i" "j" (by decide)

end CRBasic
